import Mathlib

/-!
# Verification of the node_EEB P2P node orchestration core

Shallow embedding of `src/main.rs` and `src/p2p_node.rs` (a libp2p-based
peer-to-peer node).  Pure data (the `HandshakeMessage` struct and its
serde_json wire encoding) is embedded as executable Lean functions; the
stateful orchestration loop is embedded as pure step functions from a node
state and a clock reading to a new state plus a list of issued commands
("effects": publishes, dials, routing-table updates, log lines).

Collaborator libraries (serde_json, libp2p) are modelled at the level of the
contract the repository code relies on:
* `encode` produces exactly the compact JSON text `serde_json::to_string`
  emits for `HandshakeMessage` (fields in declaration order, strings escaped
  as serde_json escapes them);
* `decode` is a JSON parser for that object shape, accepting fields in any
  order, rejecting duplicate fields, mistyped or missing required fields and
  trailing input, and treating a missing `node_name` (an `Option` field) as
  `None`, as serde's derived `Deserialize` does.  It is stricter than
  serde_json in ways no claim depends on (it does not skip unknown fields,
  accepts only the string escapes `\"` and `\\`, and no inter-token
  whitespace).
* wall-clock time is a parameter: `clock : Int` is the current time in whole
  seconds relative to the Unix epoch (negative = clock before the epoch);
  `SystemTime::now().duration_since(UNIX_EPOCH).unwrap()` is
  `durationSinceEpoch`, whose `none` result models the panic of `unwrap`.
-/

/-- `HandshakeMessage` from src/p2p_node.rs lines 35-41.  `u64` timestamps are
modelled as `Nat` (no arithmetic is performed on them, so no overflow arises). -/
structure HandshakeMessage where
  node_name : Option String
  peer_id : String
  timestamp : Nat
  message : String
  deriving Repr, DecidableEq

/-! ## serde_json encoding model -/

/-- Hex digit character for a value below 16 (used for `\u00XX` escapes). -/
def hexDigit (n : Nat) : Char :=
  if n < 10 then Char.ofNat (48 + n) else Char.ofNat (87 + n)

/-- How serde_json escapes one character inside a JSON string: `"` and `\`
get a backslash escape, control characters below 0x20 get their short escape
or a `\u00XX` escape, and every other character is emitted as itself. -/
def escapeChar (c : Char) : List Char :=
  if c = '"' then ['\\', '"']
  else if c = '\\' then ['\\', '\\']
  else if c = Char.ofNat 8 then ['\\', 'b']
  else if c = Char.ofNat 9 then ['\\', 't']
  else if c = Char.ofNat 10 then ['\\', 'n']
  else if c = Char.ofNat 12 then ['\\', 'f']
  else if c = Char.ofNat 13 then ['\\', 'r']
  else if c.toNat < 32 then
    ['\\', 'u', '0', '0', hexDigit (c.toNat / 16), hexDigit (c.toNat % 16)]
  else [c]

/-- serde_json escaping of a whole string body. -/
def escapeList (s : List Char) : List Char :=
  s.flatMap escapeChar

/-- A JSON string token: quote, escaped body, quote. -/
def renderStr (s : String) : List Char :=
  '"' :: (escapeList s.data ++ ['"'])

/-- Decimal digit character. -/
def digitChar (n : Nat) : Char := Char.ofNat (48 + n)

/-- Decimal digits of a positive number, most significant first, in front of
`acc`. -/
def natDigitsAux : Nat → List Char → List Char
  | 0, acc => acc
  | n + 1, acc => natDigitsAux ((n + 1) / 10) (digitChar ((n + 1) % 10) :: acc)
termination_by n _ => n
decreasing_by
  simp_wf
  exact Nat.div_lt_self (Nat.succ_pos n) (by decide)

/-- Decimal rendering of a `Nat`, as serde_json renders a `u64`. -/
def natDigits (n : Nat) : List Char :=
  if n = 0 then ['0'] else natDigitsAux n []

/-- JSON for an `Option String` field value: `null` or a string. -/
def renderOptStr : Option String → List Char
  | none => ['n', 'u', 'l', 'l']
  | some s => renderStr s

/-- The exact character sequence `serde_json::to_string` produces for a
`HandshakeMessage`: a compact object with the four fields in declaration
order. -/
def encodeList (m : HandshakeMessage) : List Char :=
  '{' :: ("\"node_name\":".data
    ++ renderOptStr m.node_name
    ++ ",\"peer_id\":".data ++ renderStr m.peer_id
    ++ ",\"timestamp\":".data ++ natDigits m.timestamp
    ++ ",\"message\":".data ++ renderStr m.message
    ++ ['}'])

/-- `serde_json::to_string(&handshake)` (always succeeds for this struct, so
the `Ok` branch of `if let Ok(message_json)` is the only reachable one). -/
def encode (m : HandshakeMessage) : String :=
  String.mk (encodeList m)

/-! ## serde_json decoding model -/

/-- Parse the body of a JSON string after the opening quote, returning the
unescaped characters and the input remaining after the closing quote.
Accepts the escapes `\"` and `\\` (the ones `encode` emits for
control-character-free strings). -/
def parseStringBody : List Char → Option (List Char × List Char)
  | [] => none
  | c :: rest =>
    if c = '"' then some ([], rest)
    else if c = '\\' then
      match rest with
      | [] => none
      | e :: rest2 =>
        if e = '"' ∨ e = '\\' then
          (parseStringBody rest2).map fun p => (e :: p.1, p.2)
        else none
    else (parseStringBody rest).map fun p => (c :: p.1, p.2)

/-- Accumulate decimal digits into a number, stopping at the first
non-digit. -/
def parseNatAux : List Char → Nat → Nat × List Char
  | [], acc => (acc, [])
  | c :: rest, acc =>
    if c.isDigit then parseNatAux rest (10 * acc + (c.toNat - 48))
    else (acc, c :: rest)

/-- Parse a JSON non-negative integer (the only number shape `encode`
emits). -/
def parseNumber : List Char → Option (Nat × List Char)
  | [] => none
  | c :: rest =>
    if c.isDigit then some (parseNatAux rest (c.toNat - 48)) else none

/-- Fields of a `HandshakeMessage` seen so far while parsing the object, each
`none` until its key has been consumed (serde's derived visitor state). -/
structure PartialHS where
  node_name : Option (Option String) := none
  peer_id : Option String := none
  timestamp : Option Nat := none
  message : Option String := none
  deriving Repr, DecidableEq

/-- Parse the value for one known key and record it, failing on a duplicate
field (as serde_json does), a mistyped value, or an unknown key. -/
def parseFieldValue (key : List Char) (p : PartialHS) (cs : List Char) :
    Option (PartialHS × List Char) :=
  if key = "node_name".data then
    match p.node_name with
    | some _ => none
    | none =>
      match cs with
      | 'n' :: 'u' :: 'l' :: 'l' :: rest => some ({ p with node_name := some none }, rest)
      | '"' :: rest =>
        (parseStringBody rest).map fun q =>
          ({ p with node_name := some (some (String.mk q.1)) }, q.2)
      | _ => none
  else if key = "peer_id".data then
    match p.peer_id with
    | some _ => none
    | none =>
      match cs with
      | '"' :: rest =>
        (parseStringBody rest).map fun q => ({ p with peer_id := some (String.mk q.1) }, q.2)
      | _ => none
  else if key = "timestamp".data then
    match p.timestamp with
    | some _ => none
    | none =>
      (parseNumber cs).map fun q => ({ p with timestamp := some q.1 }, q.2)
  else if key = "message".data then
    match p.message with
    | some _ => none
    | none =>
      match cs with
      | '"' :: rest =>
        (parseStringBody rest).map fun q => ({ p with message := some (String.mk q.1) }, q.2)
      | _ => none
  else none

/-- Parse `"key":value` pairs separated by `,` until the closing `}`.  The
fuel only needs to cover the four distinct fields: every successful step
fills a previously empty slot, so five steps can never succeed. -/
def parseFieldsAux : Nat → PartialHS → List Char → Option (PartialHS × List Char)
  | 0, _, _ => none
  | fuel + 1, p, cs =>
    match cs with
    | '"' :: rest =>
      match parseStringBody rest with
      | none => none
      | some (key, rest1) =>
        match rest1 with
        | ':' :: rest2 =>
          match parseFieldValue key p rest2 with
          | none => none
          | some (p1, rest3) =>
            match rest3 with
            | ',' :: rest4 => parseFieldsAux fuel p1 rest4
            | '}' :: rest4 => some (p1, rest4)
            | _ => none
        | _ => none
    | _ => none

/-- `serde_json::from_slice::<HandshakeMessage>` on a character list: parse
the object, require every byte consumed, require `peer_id`, `timestamp` and
`message` present, and default a missing `node_name` (an `Option` field) to
`None`. -/
def decodeList (cs : List Char) : Except String HandshakeMessage :=
  match cs with
  | '{' :: cs =>
    match parseFieldsAux 4 {} cs with
    | none => Except.error "invalid JSON"
    | some (p, rest) =>
      if rest.isEmpty then
        match p.peer_id, p.timestamp, p.message with
        | some pid, some ts, some msg =>
          Except.ok { node_name := p.node_name.getD none, peer_id := pid,
                      timestamp := ts, message := msg }
        | _, _, _ => Except.error "missing field"
      else Except.error "trailing characters"
  | _ => Except.error "expected value"

/-- `serde_json::from_slice::<HandshakeMessage>` on the payload bytes. -/
def decode (s : String) : Except String HandshakeMessage :=
  decodeList s.data

/-! ## Node model

The stateful part of `p2p_node.rs`.  The swarm's mutable state queried or
updated by the orchestration core is carried in `P2PNode`; every command the
core issues to a collaborator (gossipsub publish, dial, Kademlia
`add_address`, tracing log line) becomes an `Effect` in the returned list, in
issue order.  Fire-and-forget outcomes that the code inspects immediately
(the `Result` of `gossipsub.publish`) are passed in as a `pubOk : Bool`
parameter.  A function returning `Option` uses `none` for a panic
(`unwrap`). -/

/-- One component of a libp2p multiaddress, as inspected by the code
(`Protocol::P2p` versus everything else). -/
inductive MProtocol where
  | ip4 (addr : String)
  | tcp (port : Nat)
  | dnsaddr (name : String)
  | p2p (peer_id : String)
  | other (tag : String)
  deriving Repr, DecidableEq

/-- A parsed multiaddress: its protocol components in order
(`multiaddr.iter()`). -/
def Multiaddr := List MProtocol
deriving Repr, DecidableEq

/-- A command issued to a collaborator, or a log line. -/
inductive Effect where
  | publish (topic : String) (data : String)
  | dial (addr : Multiaddr)
  | dialPeer (peer_id : String)
  | addAddress (peer_id : String) (addr : Multiaddr)
  | logInfo (s : String)
  | logWarn (s : String)
  | logDebug (s : String)
  | logError (s : String)

/-- Is this effect only a log line (no command to any collaborator)? -/
def Effect.isLog : Effect → Bool
  | .logInfo _ | .logWarn _ | .logDebug _ | .logError _ => true
  | _ => false

/-- Is this effect a gossipsub publish? -/
def Effect.isPublish : Effect → Bool
  | .publish _ _ => true
  | _ => false

/-- Number of publish commands in an effect list. -/
def countPublish (effs : List Effect) : Nat :=
  effs.countP fun e => e.isPublish

/-- The mutable orchestrator state of `P2PNode` (src/p2p_node.rs lines
55-59).  `node_name` and `handshake_topic` are the struct's own fields; the
rest is the swarm state the core reads or writes: the local peer id
(`swarm.local_peer_id()`), the connected-peer snapshot
(`swarm.connected_peers()`), the Kademlia routing table entries added via
`add_address`, and the gossipsub subscription set.  `IdentTopic` is carried
as its topic string (its hash is injective on topic strings, so topic-hash
comparison is modelled as string comparison). -/
structure P2PNode where
  local_peer_id : String
  node_name : Option String
  handshake_topic : String
  connected_peers : List String
  routing_table : List (String × Multiaddr)
  subscriptions : List String

/-- `SystemTime::now().duration_since(UNIX_EPOCH)`, with `clock` the current
wall-clock reading in whole seconds relative to the epoch: `Err` (here
`none`) exactly when the clock reads before the epoch.  `.unwrap().as_secs()`
on the result is modelled by propagating `none` as a panic. -/
def durationSinceEpoch (clock : Int) : Option Nat :=
  if 0 ≤ clock then some clock.toNat else none

/-- Two-digit zero-padded decimal, as chrono's `%H`/`%M`/`%S` print. -/
def pad2 (n : Nat) : String :=
  if n < 10 then "0" ++ String.mk (natDigits n) else String.mk (natDigits n)

/-- `chrono::Utc::now().format("%H:%M:%S")` at `ts` seconds after the epoch
(chrono's UTC clock ignores leap seconds, so the time of day is `ts` modulo
one day). -/
def formatHMS (ts : Nat) : String :=
  pad2 (ts / 3600 % 24) ++ ":" ++ pad2 (ts / 60 % 60) ++ ":" ++ pad2 (ts % 60)

/-- The `HandshakeMessage` literal built in `send_handshake_message`
(src/p2p_node.rs lines 416-427), with `ts` the unwrapped epoch seconds. -/
def mkSendHandshake (node_name : Option String) (local_peer_id : String) (ts : Nat) :
    HandshakeMessage :=
  { node_name := node_name
    peer_id := local_peer_id
    timestamp := ts
    message := "Hello from " ++ node_name.getD "Anonymous Node" ++ "! 👋" }

/-- The `HandshakeMessage` literal built in `broadcast_handshake`
(src/p2p_node.rs lines 448-460); its `message` also interpolates the current
UTC time of day via chrono. -/
def mkBroadcastHandshake (node_name : Option String) (local_peer_id : String) (ts : Nat) :
    HandshakeMessage :=
  { node_name := node_name
    peer_id := local_peer_id
    timestamp := ts
    message := "Periodic handshake from " ++ node_name.getD "Anonymous Node"
      ++ "! Current time: " ++ formatHMS ts }

/-- `send_handshake_message` (src/p2p_node.rs lines 415-440): build the
handshake (panicking if the clock is before the epoch), serialize it (always
succeeds), publish on the handshake topic, then log the publish outcome. -/
def P2PNode.send_handshake_message (node : P2PNode) (clock : Int) (pubOk : Bool)
    (peer_id : String) : Option (List Effect) :=
  (durationSinceEpoch clock).map fun ts =>
    let handshake := mkSendHandshake node.node_name node.local_peer_id ts
    let message_json := encode handshake
    Effect.publish node.handshake_topic message_json ::
      (if pubOk then [Effect.logInfo ("📤 Sent handshake to " ++ peer_id)]
       else [Effect.logError "Failed to publish handshake message"])

/-- `broadcast_handshake` (src/p2p_node.rs lines 442-472): snapshot the
connected peers; if the snapshot is empty do nothing at all, otherwise log,
build the periodic handshake (panicking if the clock is before the epoch),
serialize and publish it once, logging only on publish failure. -/
def P2PNode.broadcast_handshake (node : P2PNode) (clock : Int) (pubOk : Bool) :
    Option (List Effect) :=
  let connected_peers := node.connected_peers
  if connected_peers.isEmpty then some []
  else
    (durationSinceEpoch clock).map fun ts =>
      let handshake := mkBroadcastHandshake node.node_name node.local_peer_id ts
      let message_json := encode handshake
      Effect.logInfo ("📡 Broadcasting handshake to "
          ++ String.mk (natDigits connected_peers.length) ++ " connected peers") ::
        Effect.publish node.handshake_topic message_json ::
        (if pubOk then [] else [Effect.logError "Failed to broadcast handshake"])

/-- `handle_handshake_message` (src/p2p_node.rs lines 474-488): decode the
payload; log the greeting on success, log a warning on failure.  The Rust
method takes `&self`, so the node state is returned unchanged. -/
def P2PNode.handle_handshake_message (node : P2PNode) (peer_id : String) (data : String) :
    P2PNode × List Effect :=
  match decode data with
  | Except.ok handshake =>
    (node, [Effect.logInfo ("🤝 Received handshake from " ++ peer_id ++ " ("
      ++ handshake.node_name.getD "Anonymous" ++ "): " ++ handshake.message)])
  | Except.error e =>
    (node, [Effect.logWarn ("Failed to parse handshake message: " ++ e)])

/-- `connect_to_peer` (src/p2p_node.rs lines 223-235).  `addr.parse()?` is
the multiaddress parser of the libp2p collaborator, so the function takes the
parse outcome: `none` (parse failure, propagated by `?`) or the parsed
component list.  When the last component is a peer id the address is dialed;
otherwise the function fails without issuing any command. -/
def P2PNode.connect_to_peer (parsed : Option Multiaddr) :
    Except String (List Effect) :=
  match parsed with
  | none => Except.error "multiaddr parse error"
  | some multiaddr =>
    match multiaddr.getLast? with
    | some (MProtocol.p2p peer_id) =>
      Except.ok [Effect.logInfo ("🔗 Connecting to peer: " ++ peer_id),
                 Effect.dial multiaddr]
    | _ => Except.error "Multiaddr must contain peer ID"

/-- The swarm events the orchestration loop (src/p2p_node.rs `run`) handles
with more than a log line, plus a catch-all for the log-only arms. -/
inductive SwarmEvent where
  | mdnsDiscovered (peers : List (String × Multiaddr))
  | gossipsubMessage (propagation_source : String) (topic : String) (data : String)
  | identifyReceived (peer_id : String) (listen_addrs : List Multiaddr)
  | connectionEstablished (peer_id : String)
  | connectionClosed (peer_id : String)
  | logOnly (line : String)

/-- One iteration of the `run` loop's swarm-event arm (src/p2p_node.rs lines
246-393): dispatch a single event, returning the updated node state and the
commands issued, before the loop consumes its next event or tick.  `none`
models a panic inside the handler. -/
def P2PNode.handleSwarmEvent (node : P2PNode) (clock : Int) (pubOk : Bool) :
    SwarmEvent → Option (P2PNode × List Effect)
  | SwarmEvent.mdnsDiscovered peers =>
    some (peers.foldl
      (fun acc pa =>
        ({ acc.1 with routing_table := acc.1.routing_table ++ [pa] },
         acc.2 ++ [Effect.logInfo ("🔍 mDNS discovered peer: " ++ pa.1),
                   Effect.addAddress pa.1 pa.2, Effect.dial pa.2]))
      (node, []))
  | SwarmEvent.gossipsubMessage src topic data =>
    if topic = node.handshake_topic then
      some (node.handle_handshake_message src data)
    else some (node, [])
  | SwarmEvent.identifyReceived peer_id listen_addrs =>
    some ({ node with routing_table :=
              node.routing_table ++ listen_addrs.map fun a => (peer_id, a) },
          Effect.logInfo ("🆔 Identified peer: " ++ peer_id) ::
            listen_addrs.map fun a => Effect.addAddress peer_id a)
  | SwarmEvent.connectionEstablished peer_id =>
    (node.send_handshake_message clock pubOk peer_id).map fun effs =>
      (node, Effect.logInfo ("🤝 Connected to peer: " ++ peer_id) :: effs)
  | SwarmEvent.connectionClosed peer_id =>
    some (node, [Effect.logInfo ("👋 Disconnected from peer: " ++ peer_id)])
  | SwarmEvent.logOnly line =>
    some (node, [Effect.logInfo line])

/-- `mdns::Config` as configured by `P2PNode::new`: the only field the code
touches.  Its libp2p default is `enable_ipv6 = false`. -/
structure MdnsConfig where
  enable_ipv6 : Bool
  deriving Repr, DecidableEq

/-- `mdns::Config::default()`. -/
def mdnsDefaultConfig : MdnsConfig := { enable_ipv6 := false }

/-- A constructed `mdns::tokio::Behaviour`; constructing one starts
local-network discovery with the given configuration (there is no inert
variant of this behaviour type). -/
structure MdnsBehaviour where
  config : MdnsConfig
  deriving Repr, DecidableEq

/-- The mDNS construction in `P2PNode::new` (src/p2p_node.rs lines 103-114):
both branches of `if enable_mdns` construct an mDNS behaviour; the `else`
branch merely sets `enable_ipv6 := false` on the default configuration. -/
def mkMdns (enable_mdns : Bool) : MdnsBehaviour :=
  if enable_mdns then { config := mdnsDefaultConfig }
  else { config := { mdnsDefaultConfig with enable_ipv6 := false } }

/-- A string is valid for the wire when it has no control characters, so
serde_json emits each character either unescaped or as `\"`/`\\`.  Peer ids
(base58) and ordinary node names satisfy this. -/
def validString (s : String) : Prop := ∀ c ∈ s.data, 32 ≤ c.toNat

/-- Validity of an optional node name: the name, when present, is a valid
wire string. -/
def validName (o : Option String) : Prop := validString (o.getD "")

instance (s : String) : Decidable (validString s) :=
  inferInstanceAs (Decidable (∀ c ∈ s.data, 32 ≤ c.toNat))

instance (o : Option String) : Decidable (validName o) :=
  inferInstanceAs (Decidable (validString (o.getD "")))

/-- Every publish command in the list carries the encoding of a
`HandshakeMessage` whose `peer_id` is the given local peer id. -/
def publishesOwnPeerId (localPid : String) (effs : List Effect) : Prop :=
  ∀ t d, Effect.publish t d ∈ effs →
    ∃ hs : HandshakeMessage, d = encode hs ∧ hs.peer_id = localPid

/-- Every publish command in the list goes to the given topic. -/
def onlyTopic (topic : String) (effs : List Effect) : Prop :=
  ∀ t d, Effect.publish t d ∈ effs → t = topic

/-- The list contains nothing but log lines: no publish, dial or
routing-table command. -/
def onlyLogs (effs : List Effect) : Prop :=
  ∀ e ∈ effs, e.isLog = true

/-! ## Lemmas: decimal digits -/

theorem digitChar_toNat (d : Nat) (h : d < 10) : (digitChar d).toNat = 48 + d := by
  interval_cases d <;> decide

theorem digitChar_isDigit (d : Nat) (h : d < 10) : (digitChar d).isDigit = true := by
  interval_cases d <;> decide

theorem natDigitsAux_acc (n : Nat) :
    ∀ acc, natDigitsAux n acc = natDigitsAux n [] ++ acc := by
  induction n using Nat.strong_induction_on with
  | _ n ih =>
    intro acc
    cases n with
    | zero => simp [natDigitsAux]
    | succ m =>
      have hlt : (m + 1) / 10 < m + 1 := Nat.div_lt_self (Nat.succ_pos m) (by decide)
      simp only [natDigitsAux]
      rw [ih _ hlt (digitChar ((m + 1) % 10) :: acc), ih _ hlt [digitChar ((m + 1) % 10)]]
      simp

theorem natDigitsAux_digits (n : Nat) :
    ∀ c ∈ natDigitsAux n [], c.isDigit = true := by
  induction n using Nat.strong_induction_on with
  | _ n ih =>
    cases n with
    | zero => simp [natDigitsAux]
    | succ m =>
      have hlt : (m + 1) / 10 < m + 1 := Nat.div_lt_self (Nat.succ_pos m) (by decide)
      intro c hc
      simp only [natDigitsAux] at hc
      rw [natDigitsAux_acc] at hc
      rcases List.mem_append.mp hc with h | h
      · exact ih _ hlt c h
      · have : c = digitChar ((m + 1) % 10) := by simpa using h
        rw [this]
        exact digitChar_isDigit _ (Nat.mod_lt _ (by decide))

theorem natDigits_digits (n : Nat) : ∀ c ∈ natDigits n, c.isDigit = true := by
  unfold natDigits
  split
  · intro c hc; simp at hc; rw [hc]; decide
  · exact natDigitsAux_digits n

theorem natDigits_ne_nil (n : Nat) : natDigits n ≠ [] := by
  unfold natDigits
  split
  · simp
  · rename_i h
    cases n with
    | zero => exact absurd rfl h
    | succ m =>
      simp only [natDigitsAux]
      rw [natDigitsAux_acc]
      simp

theorem foldl_natDigitsAux (n : Nat) (h : 0 < n) :
    List.foldl (fun a c => 10 * a + (c.toNat - 48)) 0 (natDigitsAux n []) = n := by
  induction n using Nat.strong_induction_on with
  | _ n ih =>
    cases n with
    | zero => exact absurd h (by decide)
    | succ m =>
      have hlt : (m + 1) / 10 < m + 1 := Nat.div_lt_self (Nat.succ_pos m) (by decide)
      have hmod : (m + 1) % 10 < 10 := Nat.mod_lt _ (by decide)
      simp only [natDigitsAux]
      rw [natDigitsAux_acc, List.foldl_append]
      rcases Nat.eq_zero_or_pos ((m + 1) / 10) with hq | hq
      · rw [hq]
        simp only [natDigitsAux, List.foldl_nil, List.foldl_cons]
        rw [digitChar_toNat _ hmod]
        have := Nat.div_add_mod (m + 1) 10
        omega
      · rw [ih _ hlt hq]
        simp only [List.foldl_cons, List.foldl_nil]
        rw [digitChar_toNat _ hmod]
        have := Nat.div_add_mod (m + 1) 10
        omega

theorem foldl_natDigits (n : Nat) :
    List.foldl (fun a c => 10 * a + (c.toNat - 48)) 0 (natDigits n) = n := by
  unfold natDigits
  split
  · rename_i h; rw [h]; decide
  · rename_i h
    exact foldl_natDigitsAux n (Nat.pos_of_ne_zero h)

/-! ## Lemmas: number parsing -/

theorem parseNatAux_digits_append (ds rest : List Char)
    (hd : ∀ c ∈ ds, c.isDigit = true)
    (hr : ∀ c ∈ rest.head?, c.isDigit = false) :
    ∀ acc, parseNatAux (ds ++ rest) acc =
      (List.foldl (fun a c => 10 * a + (c.toNat - 48)) acc ds, rest) := by
  induction ds with
  | nil =>
    intro acc
    cases rest with
    | nil => simp [parseNatAux]
    | cons c t =>
      have hc : c.isDigit = false := hr c (by simp)
      simp [parseNatAux, hc]
  | cons c t ih =>
    intro acc
    have hc : c.isDigit = true := hd c (by simp)
    simp only [List.cons_append, parseNatAux, hc, if_true, List.foldl_cons]
    exact ih (fun x hx => hd x (by simp [hx])) (10 * acc + (c.toNat - 48))

theorem parseNumber_natDigits (n : Nat) (rest : List Char)
    (hr : ∀ c ∈ rest.head?, c.isDigit = false) :
    parseNumber (natDigits n ++ rest) = some (n, rest) := by
  cases hnd : natDigits n with
  | nil => exact absurd hnd (natDigits_ne_nil n)
  | cons d ds =>
    have hdd : d.isDigit = true := natDigits_digits n d (by rw [hnd]; simp)
    have hds : ∀ c ∈ ds, c.isDigit = true := fun c hc =>
      natDigits_digits n c (by rw [hnd]; simp [hc])
    simp only [List.cons_append, parseNumber, hdd, if_true]
    rw [parseNatAux_digits_append ds rest hds hr]
    have hfold := foldl_natDigits n
    rw [hnd] at hfold
    simp only [List.foldl_cons] at hfold
    simp only [Nat.mul_zero, Nat.zero_add] at hfold
    rw [hfold]

/-! ## Lemmas: string escaping -/

theorem escapeChar_of_valid (c : Char) (h : 32 ≤ c.toNat) :
    escapeChar c = if c = '"' then ['\\', '"']
      else if c = '\\' then ['\\', '\\'] else [c] := by
  have h3 : c ≠ Char.ofNat 8 := by rintro rfl; exact absurd h (by decide)
  have h4 : c ≠ Char.ofNat 9 := by rintro rfl; exact absurd h (by decide)
  have h5 : c ≠ Char.ofNat 10 := by rintro rfl; exact absurd h (by decide)
  have h6 : c ≠ Char.ofNat 12 := by rintro rfl; exact absurd h (by decide)
  have h7 : c ≠ Char.ofNat 13 := by rintro rfl; exact absurd h (by decide)
  have h8 : ¬ c.toNat < 32 := by omega
  simp [escapeChar, h3, h4, h5, h6, h7, h8]

theorem parseStringBody_escape (s rest : List Char) (h : ∀ c ∈ s, 32 ≤ c.toNat) :
    parseStringBody (escapeList s ++ '"' :: rest) = some (s, rest) := by
  induction s with
  | nil =>
    rw [show escapeList [] ++ '"' :: rest = '"' :: rest by simp [escapeList]]
    rw [parseStringBody.eq_def]
    simp
  | cons c t ih =>
    have hc : 32 ≤ c.toNat := h c (by simp)
    have ht : ∀ x ∈ t, 32 ≤ x.toNat := fun x hx => h x (by simp [hx])
    have hIH := ih ht
    rw [show escapeList (c :: t) = escapeChar c ++ escapeList t by simp [escapeList]]
    rw [escapeChar_of_valid c hc]
    by_cases h1 : c = '"'
    · subst h1
      simp only [if_pos rfl, List.cons_append, List.append_assoc]
      rw [parseStringBody.eq_def]
      simp [hIH]
    · by_cases h2 : c = '\\'
      · subst h2
        simp only [if_neg (by decide : ¬('\\' = '"')), if_pos rfl,
          List.cons_append, List.append_assoc]
        rw [parseStringBody.eq_def]
        simp [hIH]
      · simp only [if_neg h1, if_neg h2, List.cons_append, List.singleton_append]
        rw [parseStringBody.eq_def]
        simp [h1, h2, hIH]

/-! ## Lemmas: object keys -/

theorem parseKeyNN (rest : List Char) :
    parseStringBody ('n' :: 'o' :: 'd' :: 'e' :: '_' :: 'n' :: 'a' :: 'm' :: 'e' :: '"' :: rest) =
      some ("node_name".data, rest) :=
  parseStringBody_escape "node_name".data rest (by decide)

theorem parseKeyPI (rest : List Char) :
    parseStringBody ('p' :: 'e' :: 'e' :: 'r' :: '_' :: 'i' :: 'd' :: '"' :: rest) =
      some ("peer_id".data, rest) :=
  parseStringBody_escape "peer_id".data rest (by decide)

theorem parseKeyTS (rest : List Char) :
    parseStringBody ('t' :: 'i' :: 'm' :: 'e' :: 's' :: 't' :: 'a' :: 'm' :: 'p' :: '"' :: rest) =
      some ("timestamp".data, rest) :=
  parseStringBody_escape "timestamp".data rest (by decide)

theorem parseKeyMSG (rest : List Char) :
    parseStringBody ('m' :: 'e' :: 's' :: 's' :: 'a' :: 'g' :: 'e' :: '"' :: rest) =
      some ("message".data, rest) :=
  parseStringBody_escape "message".data rest (by decide)

/-! ## The round-trip law -/

theorem decodeList_encodeList_some (nm pid msg : String) (ts : Nat)
    (h1 : validString nm) (h2 : validString pid) (h3 : validString msg) :
    decodeList (encodeList ⟨some nm, pid, ts, msg⟩) = Except.ok ⟨some nm, pid, ts, msg⟩ := by
  have h1a : ∀ c ∈ nm.data, 32 ≤ c.toNat := h1
  have h2a : ∀ c ∈ pid.data, 32 ≤ c.toNat := h2
  have h3a : ∀ c ∈ msg.data, 32 ≤ c.toNat := h3
  have hcomma : (','.isDigit) = false := by decide
  have hmk : ∀ s : String, String.mk s.data = s := fun _ => rfl
  simp only [encodeList, renderStr, renderOptStr, List.append_assoc, List.cons_append,
    List.singleton_append, List.nil_append]
  simp [decodeList, parseFieldsAux, parseFieldValue, parseKeyNN, parseKeyPI, parseKeyTS,
    parseKeyMSG, hmk]
  rw [parseStringBody_escape nm.data _ h1a]
  simp [parseFieldsAux, parseFieldValue, parseKeyPI, parseKeyTS, parseKeyMSG, hmk]
  rw [parseStringBody_escape pid.data _ h2a]
  simp [parseFieldsAux, parseFieldValue, parseKeyTS, parseKeyMSG, hmk]
  rw [parseNumber_natDigits ts _ (by intro c hc; simp at hc; subst hc; exact hcomma)]
  simp [parseFieldsAux, parseFieldValue, parseKeyMSG, hmk]
  rw [parseStringBody_escape msg.data _ h3a]
  simp [hmk]

theorem decodeList_encodeList_none (pid msg : String) (ts : Nat)
    (h2 : validString pid) (h3 : validString msg) :
    decodeList (encodeList ⟨none, pid, ts, msg⟩) = Except.ok ⟨none, pid, ts, msg⟩ := by
  have h2a : ∀ c ∈ pid.data, 32 ≤ c.toNat := h2
  have h3a : ∀ c ∈ msg.data, 32 ≤ c.toNat := h3
  have hcomma : (','.isDigit) = false := by decide
  have hmk : ∀ s : String, String.mk s.data = s := fun _ => rfl
  simp only [encodeList, renderStr, renderOptStr, List.append_assoc, List.cons_append,
    List.singleton_append, List.nil_append]
  simp [decodeList, parseFieldsAux, parseFieldValue, parseKeyNN, parseKeyPI, parseKeyTS,
    parseKeyMSG, hmk]
  rw [parseStringBody_escape pid.data _ h2a]
  simp [parseFieldsAux, parseFieldValue, parseKeyTS, parseKeyMSG, hmk]
  rw [parseNumber_natDigits ts _ (by intro c hc; simp at hc; subst hc; exact hcomma)]
  simp [parseFieldsAux, parseFieldValue, parseKeyMSG, hmk]
  rw [parseStringBody_escape msg.data _ h3a]
  simp [hmk]

/-- The serde_json round trip: decoding the encoding of any
`HandshakeMessage` whose strings are wire-valid gives back the message. -/
theorem decode_encode (m : HandshakeMessage) (h1 : validName m.node_name)
    (h2 : validString m.peer_id) (h3 : validString m.message) :
    decode (encode m) = Except.ok m := by
  obtain ⟨nm, pid, ts, msg⟩ := m
  cases nm with
  | none => exact decodeList_encodeList_none pid msg ts h2 h3
  | some s => exact decodeList_encodeList_some s pid msg ts h1 h2 h3

/-! ## Lemmas: wire validity of built strings -/

theorem validString_append (a b : String) (ha : validString a) (hb : validString b) :
    validString (a ++ b) := by
  intro c hc
  rw [String.data_append] at hc
  rcases List.mem_append.mp hc with h | h
  · exact ha c h
  · exact hb c h

theorem validString_getD_name (name : Option String) (h : validName name) :
    validString (name.getD "Anonymous Node") := by
  cases name with
  | none => decide
  | some s => exact h

theorem validString_hello (name : Option String) (h : validName name) :
    validString ("Hello from " ++ name.getD "Anonymous Node" ++ "! 👋") :=
  validString_append _ _
    (validString_append _ _ (by decide) (validString_getD_name name h)) (by decide)

/-! ## Lemmas: effect lists of the handshake senders -/

theorem send_handshake_effects (node : P2PNode) (clock : Int) (pubOk : Bool) (peer : String)
    (h : 0 ≤ clock) :
    node.send_handshake_message clock pubOk peer = some
      (Effect.publish node.handshake_topic
          (encode (mkSendHandshake node.node_name node.local_peer_id clock.toNat)) ::
        (if pubOk then [Effect.logInfo ("📤 Sent handshake to " ++ peer)]
         else [Effect.logError "Failed to publish handshake message"])) := by
  simp [P2PNode.send_handshake_message, durationSinceEpoch, h]

theorem send_handshake_clock_before_epoch (node : P2PNode) (clock : Int) (pubOk : Bool)
    (peer : String) (h : clock < 0) :
    node.send_handshake_message clock pubOk peer = none := by
  simp [P2PNode.send_handshake_message, durationSinceEpoch]
  omega

theorem broadcast_handshake_empty (node : P2PNode) (clock : Int) (pubOk : Bool)
    (hc : node.connected_peers.isEmpty = true) :
    node.broadcast_handshake clock pubOk = some [] := by
  simp [P2PNode.broadcast_handshake, hc]

theorem broadcast_handshake_effects (node : P2PNode) (clock : Int) (pubOk : Bool)
    (h : 0 ≤ clock) (hc : node.connected_peers.isEmpty = false) :
    node.broadcast_handshake clock pubOk = some
      (Effect.logInfo ("📡 Broadcasting handshake to "
          ++ String.mk (natDigits node.connected_peers.length) ++ " connected peers") ::
        Effect.publish node.handshake_topic
          (encode (mkBroadcastHandshake node.node_name node.local_peer_id clock.toNat)) ::
        (if pubOk then [] else [Effect.logError "Failed to broadcast handshake"])) := by
  simp [P2PNode.broadcast_handshake, hc, durationSinceEpoch, h]

theorem broadcast_handshake_clock_before_epoch (node : P2PNode) (clock : Int) (pubOk : Bool)
    (h : clock < 0) (hc : node.connected_peers.isEmpty = false) :
    node.broadcast_handshake clock pubOk = none := by
  simp [P2PNode.broadcast_handshake, hc, durationSinceEpoch]
  omega

/-! ## Claims -/

/-- C1: for every valid nodeName and peerId, decoding the encoding of a
freshly built `HandshakeMessage` reproduces the original `peer_id` and
`message` fields exactly, and the timestamp of a handshake built at a later
(or equal) clock reading is at least the earlier one's. -/
theorem C1_roundtrip_and_timestamp_monotone (name : Option String) (pid : String)
    (t1 t2 : Nat) (hn : validName name) (hp : validString pid) (ht : t1 ≤ t2) :
    (∃ m, decode (encode (mkSendHandshake name pid t1)) = Except.ok m ∧
        m.peer_id = (mkSendHandshake name pid t1).peer_id ∧
        m.message = (mkSendHandshake name pid t1).message) ∧
    (mkSendHandshake name pid t1).timestamp ≤ (mkSendHandshake name pid t2).timestamp := by
  refine ⟨⟨mkSendHandshake name pid t1, ?_, rfl, rfl⟩, ht⟩
  exact decode_encode _ hn hp (validString_hello name hn)

/-- C1 witness at a concrete input. -/
theorem C1_roundtrip_witness :
    (∃ m, decode (encode (mkSendHandshake (some "Alice") "12D3KooWSelf" 5)) = Except.ok m ∧
        m.peer_id = (mkSendHandshake (some "Alice") "12D3KooWSelf" 5).peer_id ∧
        m.message = (mkSendHandshake (some "Alice") "12D3KooWSelf" 5).message) ∧
    (mkSendHandshake (some "Alice") "12D3KooWSelf" 5).timestamp ≤
      (mkSendHandshake (some "Alice") "12D3KooWSelf" 7).timestamp :=
  C1_roundtrip_and_timestamp_monotone (some "Alice") "12D3KooWSelf" 5 7
    (by decide) (by decide) (by decide)

/-- C2: on a handshake-timer tick, `broadcast_handshake` performs exactly one
publish when the connected-peer snapshot is non-empty (whatever its size),
and zero publishes — indeed no effect at all, hence no error — when the
snapshot is empty. -/
theorem C2_tick_publish_count (node : P2PNode) (clock : Int) (pubOk : Bool)
    (h : 0 ≤ clock) :
    ∃ effs, node.broadcast_handshake clock pubOk = some effs ∧
      countPublish effs = (if node.connected_peers.isEmpty then 0 else 1) ∧
      (node.connected_peers.isEmpty = true → effs = []) := by
  by_cases hc : node.connected_peers.isEmpty
  · exact ⟨[], broadcast_handshake_empty node clock pubOk hc,
      by simp [hc, countPublish], fun _ => rfl⟩
  · refine ⟨_, broadcast_handshake_effects node clock pubOk h (by simpa using hc), ?_, ?_⟩
    · cases pubOk <;> simp [hc, countPublish, Effect.isPublish]
    · intro hemp; exact absurd hemp hc

/-- C2 witness: a two-peer snapshot and an empty snapshot, at a concrete
clock. -/
theorem C2_tick_publish_count_witness :
    (∃ effs, P2PNode.broadcast_handshake
        { local_peer_id := "12D3KooWSelf", node_name := some "A",
          handshake_topic := "node-eeb-handshakes", connected_peers := ["p1", "p2"],
          routing_table := [], subscriptions := ["node-eeb-handshakes"] } 100 true = some effs ∧
      countPublish effs = (if (["p1", "p2"] : List String).isEmpty then 0 else 1) ∧
      ((["p1", "p2"] : List String).isEmpty = true → effs = [])) ∧
    (∃ effs, P2PNode.broadcast_handshake
        { local_peer_id := "12D3KooWSelf", node_name := some "A",
          handshake_topic := "node-eeb-handshakes", connected_peers := [],
          routing_table := [], subscriptions := ["node-eeb-handshakes"] } 100 true = some effs ∧
      countPublish effs = (if ([] : List String).isEmpty then 0 else 1) ∧
      (([] : List String).isEmpty = true → effs = [])) :=
  ⟨C2_tick_publish_count _ 100 true (by decide), C2_tick_publish_count _ 100 true (by decide)⟩

/-- C3: every outgoing handshake — sent on a new connection or broadcast on a
periodic tick — carries `peer_id` equal to the node's own local peer id. -/
theorem C3_outgoing_peer_id_is_local (node : P2PNode) (clock : Int) (pubOk : Bool)
    (peer : String) :
    publishesOwnPeerId node.local_peer_id
      ((node.send_handshake_message clock pubOk peer).getD []) ∧
    publishesOwnPeerId node.local_peer_id
      ((node.broadcast_handshake clock pubOk).getD []) := by
  constructor
  · by_cases h : 0 ≤ clock
    · rw [send_handshake_effects node clock pubOk peer h]
      intro t d hmem
      refine ⟨mkSendHandshake node.node_name node.local_peer_id clock.toNat, ?_, rfl⟩
      cases pubOk <;> simp_all
    · rw [send_handshake_clock_before_epoch node clock pubOk peer (by omega)]
      intro t d hmem
      simp at hmem
  · by_cases hc : node.connected_peers.isEmpty
    · rw [broadcast_handshake_empty node clock pubOk hc]
      intro t d hmem
      simp at hmem
    · by_cases h : 0 ≤ clock
      · rw [broadcast_handshake_effects node clock pubOk h (by simpa using hc)]
        intro t d hmem
        refine ⟨mkBroadcastHandshake node.node_name node.local_peer_id clock.toNat, ?_, rfl⟩
        cases pubOk <;> simp_all
      · rw [broadcast_handshake_clock_before_epoch node clock pubOk (by omega)
          (by simpa using hc)]
        intro t d hmem
        simp at hmem

/-- C4: `connect_to_peer` fails — returning an error and issuing no command
at all — whenever the address does not parse or its last protocol component
is not a peer identifier, and a dial is issued only when the address ends in
a peer identifier. -/
theorem C4_connect_requires_peer_id (parsed : Option Multiaddr) :
    (parsed = none → ∃ e, P2PNode.connect_to_peer parsed = Except.error e) ∧
    (∀ ma, parsed = some ma → (∀ pid, ma.getLast? ≠ some (MProtocol.p2p pid)) →
      ∃ e, P2PNode.connect_to_peer parsed = Except.error e) ∧
    (∀ effs, P2PNode.connect_to_peer parsed = Except.ok effs →
      ∃ ma pid, parsed = some ma ∧ ma.getLast? = some (MProtocol.p2p pid) ∧
        effs = [Effect.logInfo ("🔗 Connecting to peer: " ++ pid), Effect.dial ma]) := by
  refine ⟨?_, ?_, ?_⟩
  · rintro rfl
    exact ⟨"multiaddr parse error", rfl⟩
  · rintro ma rfl hne
    cases hl : ma.getLast? with
    | none =>
      exact ⟨"Multiaddr must contain peer ID", by simp [P2PNode.connect_to_peer, hl]⟩
    | some p =>
      cases p with
      | p2p pid => exact absurd hl (hne pid)
      | ip4 a =>
        exact ⟨"Multiaddr must contain peer ID", by simp [P2PNode.connect_to_peer, hl]⟩
      | tcp q =>
        exact ⟨"Multiaddr must contain peer ID", by simp [P2PNode.connect_to_peer, hl]⟩
      | dnsaddr s =>
        exact ⟨"Multiaddr must contain peer ID", by simp [P2PNode.connect_to_peer, hl]⟩
      | other s =>
        exact ⟨"Multiaddr must contain peer ID", by simp [P2PNode.connect_to_peer, hl]⟩
  · intro effs heq
    cases hp : parsed with
    | none =>
      rw [hp] at heq
      simp [P2PNode.connect_to_peer] at heq
    | some ma =>
      rw [hp] at heq
      cases hl : ma.getLast? with
      | none => simp [P2PNode.connect_to_peer, hl] at heq
      | some p =>
        cases p with
        | p2p pid =>
          simp [P2PNode.connect_to_peer, hl] at heq
          first
          | exact ⟨ma, pid, rfl, hl, heq⟩
          | exact ⟨ma, pid, rfl, hl, heq.symm⟩
        | ip4 a => simp [P2PNode.connect_to_peer, hl] at heq
        | tcp q => simp [P2PNode.connect_to_peer, hl] at heq
        | dnsaddr s => simp [P2PNode.connect_to_peer, hl] at heq
        | other s => simp [P2PNode.connect_to_peer, hl] at heq

/-- C4 witness: an address whose components end in `/tcp`, with no peer
identifier. -/
theorem C4_connect_requires_peer_id_witness :
    ((some [MProtocol.ip4 "127.0.0.1", MProtocol.tcp 4001] : Option Multiaddr) = none →
      ∃ e, P2PNode.connect_to_peer (some [MProtocol.ip4 "127.0.0.1", MProtocol.tcp 4001]) =
        Except.error e) ∧
    (∀ ma, (some [MProtocol.ip4 "127.0.0.1", MProtocol.tcp 4001] : Option Multiaddr) = some ma →
      (∀ pid, ma.getLast? ≠ some (MProtocol.p2p pid)) →
      ∃ e, P2PNode.connect_to_peer (some [MProtocol.ip4 "127.0.0.1", MProtocol.tcp 4001]) =
        Except.error e) ∧
    (∀ effs, P2PNode.connect_to_peer (some [MProtocol.ip4 "127.0.0.1", MProtocol.tcp 4001]) =
        Except.ok effs →
      ∃ ma pid, (some [MProtocol.ip4 "127.0.0.1", MProtocol.tcp 4001] : Option Multiaddr) = some ma ∧
        ma.getLast? = some (MProtocol.p2p pid) ∧
        effs = [Effect.logInfo ("🔗 Connecting to peer: " ++ pid), Effect.dial ma]) :=
  C4_connect_requires_peer_id (some [MProtocol.ip4 "127.0.0.1", MProtocol.tcp 4001])

/-- C5: when the payload is not a valid encoding, `decode` returns an error
(never a message), and the handler merely logs a warning: the node state is
returned unchanged and no command is issued, so the node keeps running. -/
theorem C5_decode_failure_nonfatal (node : P2PNode) (peer data e : String)
    (h : decode data = Except.error e) :
    node.handle_handshake_message peer data =
      (node, [Effect.logWarn ("Failed to parse handshake message: " ++ e)]) := by
  unfold P2PNode.handle_handshake_message
  rw [h]

/-- C5 witness: a payload that is not JSON at all. -/
theorem C5_decode_failure_nonfatal_witness :
    P2PNode.handle_handshake_message
      { local_peer_id := "12D3KooWSelf", node_name := none,
        handshake_topic := "node-eeb-handshakes", connected_peers := [],
        routing_table := [], subscriptions := ["node-eeb-handshakes"] }
      "12D3KooWPeer" "garbage" =
      ({ local_peer_id := "12D3KooWSelf", node_name := none,
         handshake_topic := "node-eeb-handshakes", connected_peers := [],
         routing_table := [], subscriptions := ["node-eeb-handshakes"] },
       [Effect.logWarn ("Failed to parse handshake message: " ++ "expected value")]) :=
  C5_decode_failure_nonfatal _ "12D3KooWPeer" "garbage" "expected value" rfl

/-- C6: consuming a connection-established event makes the loop build one
handshake and issue exactly one publish, on the shared handshake topic (no
per-peer addressing exists in the publish command), all within the handling
of that single event. -/
theorem C6_connection_established_one_publish (node : P2PNode) (clock : Int)
    (pubOk : Bool) (pid : String) (h : 0 ≤ clock) :
    ∃ effs, node.handleSwarmEvent clock pubOk (SwarmEvent.connectionEstablished pid) =
        some (node, effs) ∧
      countPublish effs = 1 ∧ onlyTopic node.handshake_topic effs := by
  simp only [P2PNode.handleSwarmEvent]
  rw [send_handshake_effects node clock pubOk pid h]
  refine ⟨_, rfl, ?_, ?_⟩
  · cases pubOk <;> simp [countPublish, Effect.isPublish]
  · intro t d hmem
    cases pubOk <;> simp_all [onlyTopic]

/-- C6 witness at a concrete node, clock and peer. -/
theorem C6_connection_established_one_publish_witness :
    ∃ effs, P2PNode.handleSwarmEvent
        { local_peer_id := "12D3KooWSelf", node_name := some "A",
          handshake_topic := "node-eeb-handshakes", connected_peers := ["12D3KooWPeer"],
          routing_table := [], subscriptions := ["node-eeb-handshakes"] } 50 true
        (SwarmEvent.connectionEstablished "12D3KooWPeer") =
        some ({ local_peer_id := "12D3KooWSelf", node_name := some "A",
                handshake_topic := "node-eeb-handshakes", connected_peers := ["12D3KooWPeer"],
                routing_table := [], subscriptions := ["node-eeb-handshakes"] }, effs) ∧
      countPublish effs = 1 ∧ onlyTopic "node-eeb-handshakes" effs :=
  C6_connection_established_one_publish _ 50 true "12D3KooWPeer" (by decide)

/-- C7 counterexample: the periodic-tick greeting is not one fixed string
interpolating only the node name — with the same (absent) node name it
changes with the clock, because it also interpolates the current UTC time of
day; and it differs from the connection-path greeting built from the same
inputs. -/
theorem C7_not_one_fixed_greeting :
    (mkBroadcastHandshake none "12D3KooWSelf" 0).message ≠
      (mkBroadcastHandshake none "12D3KooWSelf" 3600).message ∧
    (mkSendHandshake none "12D3KooWSelf" 0).message ≠
      (mkBroadcastHandshake none "12D3KooWSelf" 0).message := by
  have hb0 : (mkBroadcastHandshake none "12D3KooWSelf" 0).message =
      "Periodic handshake from Anonymous Node! Current time: 00:00:00" := by
    simp [mkBroadcastHandshake, formatHMS, pad2, natDigits, natDigitsAux, digitChar]
  have hb1 : (mkBroadcastHandshake none "12D3KooWSelf" 3600).message =
      "Periodic handshake from Anonymous Node! Current time: 01:00:00" := by
    simp [mkBroadcastHandshake, formatHMS, pad2, natDigits, natDigitsAux, digitChar]
  have hs0 : (mkSendHandshake none "12D3KooWSelf" 0).message =
      "Hello from Anonymous Node! 👋" := by
    simp [mkSendHandshake]
  rw [hb0, hb1, hs0]
  constructor <;> decide

/-- C7 (amended): each of the two handshake constructors fills `message` with
its own fixed template — the connection-path one interpolates only the node
name (defaulting to "Anonymous Node"), while the periodic-tick one also
interpolates the current UTC time of day — and both fill `timestamp` with
the current wall-clock time in whole seconds since the epoch. -/
theorem C7_greeting_templates (name : Option String) (pid : String) (clock : Int)
    (h : 0 ≤ clock) :
    mkSendHandshake name pid ((durationSinceEpoch clock).getD 0) =
      { node_name := name, peer_id := pid, timestamp := clock.toNat,
        message := "Hello from " ++ name.getD "Anonymous Node" ++ "! 👋" } ∧
    mkBroadcastHandshake name pid ((durationSinceEpoch clock).getD 0) =
      { node_name := name, peer_id := pid, timestamp := clock.toNat,
        message := "Periodic handshake from " ++ name.getD "Anonymous Node"
          ++ "! Current time: " ++ formatHMS clock.toNat } := by
  simp [mkSendHandshake, mkBroadcastHandshake, durationSinceEpoch, h]

/-- C7 witness at a concrete clock reading. -/
theorem C7_greeting_templates_witness :
    mkSendHandshake none "12D3KooWSelf" ((durationSinceEpoch 3661).getD 0) =
      { node_name := none, peer_id := "12D3KooWSelf", timestamp := (3661 : Int).toNat,
        message := "Hello from " ++ (none : Option String).getD "Anonymous Node" ++ "! 👋" } ∧
    mkBroadcastHandshake none "12D3KooWSelf" ((durationSinceEpoch 3661).getD 0) =
      { node_name := none, peer_id := "12D3KooWSelf", timestamp := (3661 : Int).toNat,
        message := "Periodic handshake from " ++ (none : Option String).getD "Anonymous Node"
          ++ "! Current time: " ++ formatHMS (3661 : Int).toNat } :=
  C7_greeting_templates none "12D3KooWSelf" 3661 (by decide)

/-- C8: the mDNS construction in `P2PNode::new` builds byte-for-byte the same
active mDNS behaviour whether `enable_mdns` is false or true — the flag never
disables local-network discovery (the `else` branch only re-sets
`enable_ipv6` to its default value `false`). -/
theorem C8_mdns_flag_no_effect : mkMdns false = mkMdns true := rfl

/-- C9: handling a received handshake never mutates node state — the node
(routing table, subscriptions, connection set, node name and topic included)
is returned unchanged for every propagation source and payload, and every
effect issued is a log line. -/
theorem C9_handler_read_only (node : P2PNode) (peer data : String) :
    (node.handle_handshake_message peer data).1 = node ∧
    onlyLogs (node.handle_handshake_message peer data).2 := by
  cases hd : decode data with
  | ok m => simp [P2PNode.handle_handshake_message, hd, onlyLogs, Effect.isLog]
  | error e => simp [P2PNode.handle_handshake_message, hd, onlyLogs, Effect.isLog]

/-- C10: building a handshake's timestamp is total exactly when the clock is
at or after the Unix epoch: with a non-empty peer snapshot, both handshake
senders return normally iff `0 ≤ clock`, and panic (the `unwrap` of
`duration_since(UNIX_EPOCH)`) iff the clock reads before the epoch. -/
theorem C10_timestamp_unwrap_totality (node : P2PNode) (clock : Int) (pubOk : Bool)
    (peer : String) (hne : node.connected_peers.isEmpty = false) :
    ((node.send_handshake_message clock pubOk peer).isSome ↔ 0 ≤ clock) ∧
    ((node.broadcast_handshake clock pubOk).isSome ↔ 0 ≤ clock) := by
  constructor
  · constructor
    · intro hs
      by_contra h
      rw [send_handshake_clock_before_epoch node clock pubOk peer (by omega)] at hs
      simp at hs
    · intro h
      rw [send_handshake_effects node clock pubOk peer h]
      simp
  · constructor
    · intro hs
      by_contra h
      rw [broadcast_handshake_clock_before_epoch node clock pubOk (by omega) hne] at hs
      simp at hs
    · intro h
      rw [broadcast_handshake_effects node clock pubOk h hne]
      simp

/-- C10 witness: a clock reading before the epoch, with one connected peer. -/
theorem C10_timestamp_unwrap_totality_witness :
    ((P2PNode.send_handshake_message
        { local_peer_id := "12D3KooWSelf", node_name := none,
          handshake_topic := "node-eeb-handshakes", connected_peers := ["12D3KooWPeer"],
          routing_table := [], subscriptions := ["node-eeb-handshakes"] }
        (-3) true "12D3KooWPeer").isSome ↔ 0 ≤ (-3 : Int)) ∧
    ((P2PNode.broadcast_handshake
        { local_peer_id := "12D3KooWSelf", node_name := none,
          handshake_topic := "node-eeb-handshakes", connected_peers := ["12D3KooWPeer"],
          routing_table := [], subscriptions := ["node-eeb-handshakes"] }
        (-3) true).isSome ↔ 0 ≤ (-3 : Int)) :=
  C10_timestamp_unwrap_totality _ (-3) true "12D3KooWPeer" (by decide)
